import Mathlib

/-!
Verification of the Qsnap study-aid application (source: `src/unnamed/part_000`,
with `src/index.tsx` an earlier revision agreeing on all modelled behavior).
The data model (Subjects → Lectures → Questions) and the state-update handlers
of the main `App` component are embedded as pure Lean functions; the React
`setState` calls become explicit Library-in / Library-out transformations.
-/

namespace Qsnap

/-! ### Data model (TYPE DEFINITIONS section of the source) -/

/-- `Question`: tagged union of `MCQ` and `ShortAnswerQuestion`. -/
inductive Question where
  | mcq (id question : String) (options : List String) (correctAnswer : Option Nat)
  | shortAnswer (id question answer : String)
deriving DecidableEq, Repr

/-- The `id` field shared by both question variants. -/
def Question.id : Question → String
  | .mcq i _ _ _ => i
  | .shortAnswer i _ _ => i

/-- `{ ...q, id: newId }`: the spread-with-fresh-id used at commit time. -/
def Question.withId : Question → String → Question
  | .mcq _ q o c, i => .mcq i q o c
  | .shortAnswer _ q a, i => .shortAnswer i q a

structure Lecture where
  id : String
  name : String
  questions : List Question
deriving DecidableEq, Repr

structure Subject where
  id : String
  name : String
  lectures : List Lecture
deriving DecidableEq, Repr

/-- The `subjects` state array — the entire persisted document. -/
abbrev Library := List Subject

structure ExtractionResult where
  imageUrl : String
  questions : List Question
  error : Option String
deriving DecidableEq, Repr

/-! ### JavaScript string helpers

`String.prototype.trim` and the regex class `\s` strip the same character
set (ASCII whitespace plus the Unicode space separators and BOM). -/

def isJsWs (c : Char) : Bool :=
  c = ' ' || c = '\t' || c = '\n' || c = '\r' ||
  c.toNat = 0x0B || c.toNat = 0x0C || c.toNat = 0xA0 || c.toNat = 0x1680 ||
  (0x2000 ≤ c.toNat && c.toNat ≤ 0x200A) ||
  c.toNat = 0x2028 || c.toNat = 0x2029 || c.toNat = 0x202F ||
  c.toNat = 0x205F || c.toNat = 0x3000 || c.toNat = 0xFEFF

/-- `s.trim()`. -/
def jsTrim (s : String) : String :=
  String.mk (((s.data.dropWhile isJsWs).reverse.dropWhile isJsWs).reverse)

/-- `s.replace(/\s/g, '')` — the whitespace-insensitive normalization used by
the save comparison. -/
def stripWs (s : String) : String :=
  String.mk (s.data.filter (fun c => !isJsWs c))

/-! ### Library Store handlers (pure forms of the `setSubjects` updaters) -/

/-- `handleAddSubject`: guarded on `newSubjectName.trim()` being truthy
(the empty string is falsy); the stored name is the trimmed form.
`freshId` stands for the generated `sub-${Date.now()}`. -/
def handleAddSubject (freshId newSubjectName : String) (subjects : Library) : Library :=
  if jsTrim newSubjectName ≠ "" then
    subjects ++ [{ id := freshId, name := jsTrim newSubjectName, lectures := [] }]
  else subjects

/-- `handleUpdateSubject`: guarded on `editingSubject` being non-null and
`managedSubjectName.trim()` truthy; renames every subject whose id matches
`editingSubject.id` to the trimmed name. -/
def handleUpdateSubject (editingSubject : Option Subject) (managedSubjectName : String)
    (subjects : Library) : Library :=
  match editingSubject with
  | none => subjects
  | some es =>
    if jsTrim managedSubjectName ≠ "" then
      subjects.map (fun sub =>
        if sub.id = es.id then { sub with name := jsTrim managedSubjectName } else sub)
    else subjects

/-- `handleAddLecture`: `entry` is `newLectureNames[subjectId]` (possibly
absent); guarded on `entry?.trim()` truthy; appends a lecture with the
trimmed name to every subject whose id matches. `freshId` stands for the
generated `lec-${Date.now()}`. -/
def handleAddLecture (freshId subjectId : String) (entry : Option String)
    (subjects : Library) : Library :=
  match entry with
  | none => subjects
  | some raw =>
    if jsTrim raw ≠ "" then
      subjects.map (fun sub =>
        if sub.id = subjectId then
          { sub with lectures :=
              sub.lectures ++ [{ id := freshId, name := jsTrim raw, questions := [] }] }
        else sub)
    else subjects

/-- The subject branch of `handleConfirmDelete` (after the confirmation
text gate, which is UI-only): `prev.filter(sub => sub.id !== itemToDelete.id)`. -/
def deleteSubject (subjectId : String) (subjects : Library) : Library :=
  subjects.filter (fun sub => sub.id ≠ subjectId)

/-- The lecture branch of `handleConfirmDelete`. -/
def deleteLecture (subjectId lectureId : String) (subjects : Library) : Library :=
  subjects.map (fun sub =>
    if sub.id = subjectId then
      { sub with lectures := sub.lectures.filter (fun lec => lec.id ≠ lectureId) }
    else sub)

/-- `handleDeleteQuestion`. -/
def handleDeleteQuestion (subjectId lectureId questionId : String)
    (subjects : Library) : Library :=
  subjects.map (fun sub =>
    if sub.id ≠ subjectId then sub
    else
      { sub with lectures := sub.lectures.map (fun lec =>
          if lec.id ≠ lectureId then lec
          else { lec with questions := lec.questions.filter (fun q => q.id ≠ questionId) }) })

/-- `handleSaveEdit`: guarded on `editedContent` and `editingQuestionId`
being truthy (modelled by the caller passing a non-empty id); replaces
every question whose id matches with the edited content. -/
def handleSaveEdit (editingQuestionId : String) (editedContent : Question)
    (subjects : Library) : Library :=
  if editingQuestionId = "" then subjects
  else
    subjects.map (fun sub =>
      { sub with lectures := sub.lectures.map (fun lec =>
          { lec with questions := lec.questions.map (fun q =>
              if q.id = editingQuestionId then editedContent else q) }) })

/-- `newSubjects.find(...)` followed by in-place mutation of the found
subject: only the first array entry satisfying `p` is replaced. -/
def modifyFirst (p : α → Bool) (f : α → α) : List α → List α
  | [] => []
  | x :: xs => if p x then f x :: xs else x :: modifyFirst p f xs

/-- `handleDrop`: the drag-reorder of lectures within a subject.
Early return when the dragged id is empty or equal to the drop target;
`find`/`findIndex` miss → return `prevSubjects` unchanged; otherwise
`splice` the dragged lecture out at `draggedIndex` and `splice` it back
in at `targetIndex` (the target's index in the ORIGINAL sequence). -/
def handleDrop (subjectId draggedLectureId droppedOnLectureId : String)
    (subjects : Library) : Library :=
  if draggedLectureId = "" || draggedLectureId = droppedOnLectureId then subjects
  else
    match subjects.find? (fun s => s.id = subjectId) with
    | none => subjects
    | some subject =>
      match subject.lectures.findIdx? (fun l => l.id = draggedLectureId),
            subject.lectures.findIdx? (fun l => l.id = droppedOnLectureId) with
      | some draggedIndex, some targetIndex =>
        match subject.lectures[draggedIndex]? with
        | some draggedItem =>
          let newLectures :=
            (subject.lectures.eraseIdx draggedIndex).insertIdx targetIndex draggedItem
          modifyFirst (fun s => s.id = subjectId)
            (fun s => { s with lectures := newLectures }) subjects
        | none => subjects
      | _, _ => subjects

/-- The lecture list of the first subject matching `subjectId` (empty when
no subject matches), used to observe what `handleDrop` did. -/
def lecturesOfFirst (subjectId : String) (subjects : Library) : List Lecture :=
  match subjects.find? (fun s => s.id = subjectId) with
  | some s => s.lectures
  | none => []

/-! ### Staging commit (`handleAddQuestionsToLecture`) -/

/-- `questionsToAdd.map(q => ({ ...q, id: lib-... }))`: a fresh persisted id
per committed question, modelled positionally by `freshIds`. -/
def assignIds (freshIds : Nat → String) : Nat → List Question → List Question
  | _, [] => []
  | i, q :: rest => q.withId (freshIds i) :: assignIds freshIds (i + 1) rest

/-- `handleAddQuestionsToLecture`: flatten the staged questions in result
order, keep the selected ones, and unless a guard fails append them (with
fresh ids) to the chosen lecture while removing them from the staging
results; staging results left with no questions and no error are dropped. -/
def handleAddQuestionsToLecture (freshIds : Nat → String)
    (selectedSubjectId selectedLectureId : String)
    (selectedStagedIds : List String)
    (extractionResults : List ExtractionResult)
    (subjects : Library) : Library × List ExtractionResult :=
  let questionsToAdd := (extractionResults.flatMap (fun r => r.questions)).filter
      (fun q => selectedStagedIds.contains q.id)
  if selectedSubjectId = "" || selectedLectureId = "" || questionsToAdd.length = 0 then
    (subjects, extractionResults)
  else
    let newQuestions := assignIds freshIds 0 questionsToAdd
    let newSubjects := subjects.map (fun subject =>
      if subject.id ≠ selectedSubjectId then subject
      else
        { subject with lectures := subject.lectures.map (fun lecture =>
            if lecture.id ≠ selectedLectureId then lecture
            else { lecture with questions := lecture.questions ++ newQuestions }) })
    let newResults := (extractionResults.map (fun result =>
        { result with questions :=
            result.questions.filter (fun q => !(selectedStagedIds.contains q.id)) })).filter
        (fun result => result.questions.length > 0 || result.error.isSome)
    (newSubjects, newResults)

/-! ### Extraction Adapter (`analyzeImages`)

The per-image pipeline: await the vision call, `JSON.parse(response.text)`,
check `Array.isArray`, convert each element, all inside one `try` whose
`catch` yields a per-image error result. -/

/-- Parsed JSON values (numbers approximated by integers; no claim depends
on fractional numerics). -/
inductive Json where
  | null
  | bool (b : Bool)
  | num (n : Int)
  | str (s : String)
  | arr (items : List Json)
  | obj (fields : List (String × Json))

/-- JS property access `o.name` on a non-null value: `some` for an object
field, `none` (undefined) for a missing field or a non-object receiver.
(Access on `null` throws; callers match `Json.null` first.) -/
def Json.getField : Json → String → Option Json
  | .obj fields, name => (fields.find? (fun f => f.1 = name)).map (fun f => f.2)
  | _, _ => none

/-- `String(v ?? '')`: nullish becomes the empty string. The array and
object cases are abbreviated (the response schema makes every option a
string, and no claim exercises stringification of nested values). -/
def jsToString : Json → String
  | .null => ""
  | .bool b => cond b "true" "false"
  | .num n => toString n
  | .str s => s
  | .arr _ => ""
  | .obj _ => "[object Object]"

/-- JS truthiness of a JSON value. -/
def jsTruthy : Json → Bool
  | .null => false
  | .bool b => b
  | .num n => n ≠ 0
  | .str s => s ≠ ""
  | .arr _ => true
  | .obj _ => true

/-- `v || ''` rendered as the string it contributes (e.g. `q.question || ''`). -/
def jsOrEmptyStr (v : Option Json) : String :=
  match v with
  | some j => if jsTruthy j then jsToString j else ""
  | none => ""

/-- `[a-zA-Z0-9]`. -/
def isAsciiAlnum (c : Char) : Bool :=
  (0x30 ≤ c.toNat && c.toNat ≤ 0x39) ||
  (0x41 ≤ c.toNat && c.toNat ≤ 0x5A) ||
  (0x61 ≤ c.toNat && c.toNat ≤ 0x7A)

/-- `s.replace(/^\s*[a-zA-Z0-9]+[.)]\s*/, '')`: the character classes of the
pattern are disjoint, so the greedy match is the maximal whitespace run,
then a maximal non-empty alphanumeric run, then a single `.` or `)`, then
trailing whitespace; if any part fails the string is unchanged. -/
def stripLeadingMarker (s : String) : String :=
  let afterWs := s.data.dropWhile isJsWs
  let alnumRun := afterWs.takeWhile isAsciiAlnum
  match alnumRun, afterWs.dropWhile isAsciiAlnum with
  | _ :: _, c :: rest =>
    if c = '.' || c = ')' then String.mk (rest.dropWhile isJsWs) else s
  | _, _ => s

/-- Whether the regex `/^\s*[a-zA-Z0-9]+[.)]\s*/` matches a prefix of `s`
(i.e. `s` begins with a leading enumeration marker). -/
def hasLeadingMarker (s : String) : Bool :=
  let afterWs := s.data.dropWhile isJsWs
  match afterWs.takeWhile isAsciiAlnum, afterWs.dropWhile isAsciiAlnum with
  | _ :: _, c :: _ => c = '.' || c = ')'
  | _, _ => false

/-- The option post-processing: `String(opt ?? '').replace(regex, '').trim()`. -/
def stripOption (s : String) : String := jsTrim (stripLeadingMarker s)

/-- `(Array.isArray(q.options) ? q.options : []).map(opt => String(opt ?? '')...)`. -/
def optionTexts (v : Option Json) : List String :=
  match v with
  | some (.arr items) => items.map (fun opt => stripOption (jsToString opt))
  | _ => []

/-- `ext-${Date.now()}-${index}-${qIndex}`. -/
def extId (now imageIndex qIndex : Nat) : String :=
  "ext-" ++ toString now ++ "-" ++ toString imageIndex ++ "-" ++ toString qIndex

/-- One element of the parsed response array. Reading `q.type` on `null`
throws a `TypeError` (caught by the per-image `catch`), hence the `Except`.
A `"mcq"` or `"short_answer"` tag builds a question; anything else maps to
`null` and is dropped by the subsequent `.filter(q => q !== null)`. -/
def convertItem (now imageIndex qIndex : Nat) (q : Json) : Except Unit (Option Question) :=
  match q with
  | .null => .error ()
  | _ =>
    let qtype : Option String :=
      match q.getField "type" with
      | some (.str t) => some t
      | _ => none
    if qtype = some "mcq" then
      .ok (some (.mcq (extId now imageIndex qIndex)
        (jsOrEmptyStr (q.getField "question"))
        (optionTexts (q.getField "options")) none))
    else if qtype = some "short_answer" then
      .ok (some (.shortAnswer (extId now imageIndex qIndex)
        (jsOrEmptyStr (q.getField "question"))
        (jsOrEmptyStr (q.getField "answer"))))
    else .ok (none)

/-- `parsedResponse.map(...)` over the array elements, tracking `qIndex`. -/
def convertItems (now imageIndex : Nat) : Nat → List Json → List (Except Unit (Option Question))
  | _, [] => []
  | qIndex, j :: rest =>
    convertItem now imageIndex qIndex j :: convertItems now imageIndex (qIndex + 1) rest

/-- Sequence the conversions: the first thrown `TypeError` aborts the whole
image (landing in its `catch`); otherwise drop the `null`s. -/
def collectQuestions : List (Except Unit (Option Question)) → Except Unit (List Question)
  | [] => .ok []
  | .error e :: _ => .error e
  | .ok q :: rest =>
    (collectQuestions rest).map (fun qs =>
      match q with
      | some q0 => q0 :: qs
      | none => qs)

/-- What one image's extraction attempt produced before the response is
interpreted: the vision call rejected (transport/quota), `JSON.parse` threw
on the response text, or `JSON.parse` yielded a value. -/
inductive ExtractOutcome where
  | transportError
  | badJsonText
  | response (j : Json)

/-- `Failed to extract questions from image ${index + 1}. Please try again.` -/
def imageErrorMsg (index : Nat) : String :=
  "Failed to extract questions from image " ++ toString (index + 1) ++ ". Please try again."

/-- The body of `images.map(async (file, index) => ...)`: any exception in
the `try` (transport failure, `JSON.parse` throw, `TypeError` on a null
array element) becomes an error result; a parsed non-array becomes an
empty, error-free result. -/
def processImage (now : Nat) (imageUrls : List String) (index : Nat)
    (o : ExtractOutcome) : ExtractionResult :=
  let url := imageUrls.getD index ""
  match o with
  | .transportError => { imageUrl := url, questions := [], error := some (imageErrorMsg index) }
  | .badJsonText => { imageUrl := url, questions := [], error := some (imageErrorMsg index) }
  | .response j =>
    match j with
    | .arr items =>
      match collectQuestions (convertItems now index 0 items) with
      | .ok qs => { imageUrl := url, questions := qs, error := none }
      | .error _ => { imageUrl := url, questions := [], error := some (imageErrorMsg index) }
    | _ => { imageUrl := url, questions := [], error := none }

/-- `Promise.all` keeps results in input order, so the batch is the
positional map of `processImage` over the per-image outcomes. -/
def analyzeImagesFrom (now : Nat) (imageUrls : List String) :
    Nat → List ExtractOutcome → List ExtractionResult
  | _, [] => []
  | index, o :: rest =>
    processImage now imageUrls index o :: analyzeImagesFrom now imageUrls (index + 1) rest

def analyzeImages (now : Nat) (imageUrls : List String)
    (outcomes : List ExtractOutcome) : List ExtractionResult :=
  analyzeImagesFrom now imageUrls 0 outcomes

/-! ### Sync Engine: the debounced save task

The body of the `setTimeout` callback in the save effect: re-read the
remote file, compare its (base64) content to the content about to be
written under `replace(/\s/g, '')`, and either mark saved without writing
or write with the freshly read sha (`fileData?.sha || null`). -/

/-- Outcome of the re-`read` (`getGithubFile`): 404 is `notFound`; a
success carries the base64 content and the sha version token. (A thrown
read error lands in the catch: status `error`, no write — modelled by
`readError`.) -/
inductive ReadResult where
  | notFound
  | readError
  | found (content sha : String)
deriving DecidableEq, Repr

inductive SaveStatus where
  | idle
  | saving
  | saved
  | error
deriving DecidableEq, Repr

/-- A call to `saveGithubFile`: the base64 content and the expected sha. -/
structure WriteCall where
  content : String
  expectedSha : Option String
deriving DecidableEq, Repr

structure SaveOutcome where
  status : SaveStatus
  writeCall : Option WriteCall
deriving DecidableEq, Repr

/-- The debounced save task, given the re-read result, the encoded content
about to be written, and whether the write (if any) succeeds. -/
def runSaveTask (fileData : ReadResult) (encodedContent : String)
    (writeSucceeds : Bool) : SaveOutcome :=
  match fileData with
  | .readError => { status := .error, writeCall := none }
  | .found content sha =>
    if stripWs content = stripWs encodedContent then
      { status := .saved, writeCall := none }
    else
      let expected : Option String := if sha = "" then none else some sha
      if writeSucceeds then
        { status := .saved, writeCall := some { content := encodedContent, expectedSha := expected } }
      else
        { status := .error, writeCall := some { content := encodedContent, expectedSha := expected } }
  | .notFound =>
    if writeSucceeds then
      { status := .saved, writeCall := some { content := encodedContent, expectedSha := none } }
    else
      { status := .error, writeCall := some { content := encodedContent, expectedSha := none } }

/-! ### PDF Export Engine: PASS 2 of `generatePdf`

PASS 1 walks the selected lectures and leaves the document as a list of
content pages. PASS 2 (`doc.addPage(); doc.movePage(totalContentPages + 1, 1)`)
creates one fresh page and moves it to the front, renders the table of
contents on it (jsPDF appends any TOC overflow pages at the END of the
document, after the content), then stamps pages `2 .. totalContentPages + 1`
with the footer `Page ${i - 1} of ${totalContentPages}`. -/

structure Page where
  content : String
  footer : Option String
deriving DecidableEq, Repr, Inhabited

/-- `Page ${i} of ${total}`. -/
def footerText (i total : Nat) : String :=
  "Page " ++ toString i ++ " of " ++ toString total

/-- The footer loop `for (let i = 2; i <= totalContentPages + 1; i++)`,
walking the page list with its 1-based page number. -/
def stampFooters (totalContentPages : Nat) : Nat → List Page → List Page
  | _, [] => []
  | pageNo, p :: ps =>
    (if 2 ≤ pageNo ∧ pageNo ≤ totalContentPages + 1 then
        { p with footer := some (footerText (pageNo - 1) totalContentPages) }
      else p) :: stampFooters totalContentPages (pageNo + 1) ps

/-- The freshly created page moved to the front; the TOC is rendered on it. -/
def tocPage : Page := { content := "Table of Contents", footer := none }

/-- A page created by TOC overflow (`doc.addPage()` inside `toc.forEach`),
appended at the end of the document by jsPDF. -/
def tocOverflowPage : Page := { content := "", footer := none }

/-- PASS 2 over the content pages produced by PASS 1. `tocOverflow` is the
number of extra pages the TOC rendering spilled onto (zero when the TOC
fits page 1); the claims hold for every such count. -/
def pdfPassTwo (contentPages : List Page) (tocOverflow : Nat) : List Page :=
  let totalContentPages := contentPages.length
  stampFooters totalContentPages 1
    (tocPage :: (contentPages ++ List.replicate tocOverflow tocOverflowPage))

/-! ### Concrete instances used by witnesses and counterexamples -/

def lecA : Lecture := { id := "A", name := "Lecture A", questions := [] }

def lecB : Lecture := { id := "B", name := "Lecture B", questions := [] }

/-- A one-subject library whose lectures are `[A, B]`. -/
def twoLectureLib : Library := [{ id := "s", name := "Subject S", lectures := [lecA, lecB] }]

/-- Image urls for a three-image batch. -/
def urls3 : List String := ["u1", "u2", "u3"]

/-- Per-image outcomes of a three-image batch whose second call fails. -/
def outcomes3 : List ExtractOutcome :=
  [ExtractOutcome.response (Json.arr [Json.obj
      [("type", Json.str "mcq"), ("question", Json.str "Q1?"),
       ("options", Json.arr [Json.str "a) x", Json.str "B) y"])]]),
   ExtractOutcome.transportError,
   ExtractOutcome.response (Json.arr [Json.obj
      [("type", Json.str "short_answer"), ("question", Json.str "Q3?"),
       ("answer", Json.str "ans")]])]

/-- A staged MCQ used by the commit witness. -/
def stagedQ1 : Question := Question.mcq "q1" "What?" ["x", "y"] none

/-- A staged short-answer question used by the commit witness. -/
def stagedQ2 : Question := Question.shortAnswer "q2" "Why?" "because"

/-- Staging results: one image with two questions, one failed image. -/
def stagingResults : List ExtractionResult :=
  [{ imageUrl := "u1", questions := [stagedQ1, stagedQ2], error := none },
   { imageUrl := "u2", questions := [], error := some "boom" }]

/-! ### Helper lemmas -/

theorem findIdx?_some_facts {α : Type} (p : α → Bool) :
    ∀ (l : List α) (i j : Nat), List.findIdx? p l i = some j →
      i ≤ j ∧ j - i < l.length ∧ ∃ x, l[j - i]? = some x ∧ p x = true := by
  intro l
  induction l with
  | nil => intro i j h; rw [List.findIdx?_nil] at h; exact absurd h (by simp)
  | cons x xs ih =>
    intro i j h
    rw [List.findIdx?_cons] at h
    by_cases hp : p x = true
    · rw [if_pos hp] at h
      obtain rfl : i = j := by simpa using h
      refine ⟨le_refl i, by simp, x, ?_, hp⟩
      simp
    · rw [if_neg hp] at h
      obtain ⟨h1, h2, y, hy, hpy⟩ := ih (i + 1) j h
      refine ⟨by omega, by simp; omega, y, ?_, hpy⟩
      have hji : j - i = (j - (i + 1)) + 1 := by omega
      rw [hji, List.getElem?_cons_succ]
      exact hy

theorem findIdx?_some {α : Type} (p : α → Bool) (l : List α) (j : Nat)
    (h : List.findIdx? p l = some j) :
    j < l.length ∧ ∃ x, l[j]? = some x ∧ p x = true := by
  obtain ⟨-, h2, x, hx, hpx⟩ := findIdx?_some_facts p l 0 j h
  simp only [Nat.sub_zero] at h2 hx
  exact ⟨h2, x, hx, hpx⟩

theorem modifyFirst_find? {α : Type} (p : α → Bool) (f : α → α)
    (hpf : ∀ x, p x = true → p (f x) = true) :
    ∀ (l : List α) (x : α), l.find? p = some x →
      (modifyFirst p f l).find? p = some (f x) := by
  intro l
  induction l with
  | nil => intro x h; simp at h
  | cons y ys ih =>
    intro x h
    rw [List.find?_cons] at h
    by_cases hp : p y = true
    · simp only [hp] at h
      obtain rfl : y = x := by simpa using h
      simp [modifyFirst, hp, List.find?_cons, hpf y hp]
    · have hp' : p y = false := by simpa using hp
      simp only [hp'] at h
      simp [modifyFirst, hp', List.find?_cons, ih x h]

theorem forall₂_modifyFirst {α : Type} (R : α → α → Prop) (p : α → Bool) (f : α → α)
    (hrefl : ∀ x, R x x) :
    ∀ (l : List α), (∀ x, l.find? p = some x → R x (f x)) →
      List.Forall₂ R l (modifyFirst p f l) := by
  intro l
  induction l with
  | nil => intro _; simp [modifyFirst]
  | cons y ys ih =>
    intro hf
    by_cases hp : p y = true
    · have hy : R y (f y) := hf y (by simp [List.find?_cons, hp])
      simp only [modifyFirst, hp, if_pos]
      exact List.Forall₂.cons hy (List.forall₂_same.mpr (fun x _ => hrefl x))
    · have hp' : p y = false := by simpa using hp
      simp only [modifyFirst, hp', Bool.false_eq_true, if_false]
      refine List.Forall₂.cons (hrefl y) (ih ?_)
      intro x hx
      exact hf x (by simp [List.find?_cons, hp', hx])

theorem perm_cons_eraseIdx {α : Type} :
    ∀ (l : List α) (i : Nat) (x : α), l[i]? = some x → l.Perm (x :: l.eraseIdx i) := by
  intro l
  induction l with
  | nil => intro i x h; simp at h
  | cons a t ih =>
    intro i x h
    cases i with
    | zero =>
      obtain rfl : a = x := by simpa using h
      simp [List.eraseIdx]
    | succ i =>
      rw [List.getElem?_cons_succ] at h
      have h1 : (a :: t).Perm (a :: x :: t.eraseIdx i) := (ih i x h).cons a
      have h2 : (a :: x :: t.eraseIdx i).Perm (x :: a :: t.eraseIdx i) := List.Perm.swap x a _
      have h3 : x :: a :: t.eraseIdx i = x :: (a :: t).eraseIdx (i + 1) := rfl
      exact h3 ▸ (h1.trans h2)

theorem map_eq_self_of {α : Type} (f : α → α) :
    ∀ (l : List α), (∀ x ∈ l, f x = x) → l.map f = l := by
  intro l
  induction l with
  | nil => intro _; rfl
  | cons y ys ih =>
    intro h
    simp only [List.map_cons]
    rw [h y (by simp), ih (fun x hx => h x (by simp [hx]))]

theorem stampFooters_length (total : Nat) :
    ∀ (start : Nat) (pages : List Page),
      (stampFooters total start pages).length = pages.length := by
  intro start pages
  induction pages generalizing start with
  | nil => rfl
  | cons p ps ih => simp [stampFooters, ih]

theorem stampFooters_getElem? (total : Nat) :
    ∀ (pages : List Page) (start k : Nat),
      (stampFooters total start pages)[k]? = (pages[k]?).map (fun p =>
        if 2 ≤ start + k ∧ start + k ≤ total + 1 then
          { p with footer := some (footerText (start + k - 1) total) }
        else p) := by
  intro pages
  induction pages with
  | nil => intro start k; simp [stampFooters]
  | cons p ps ih =>
    intro start k
    cases k with
    | zero => simp [stampFooters]
    | succ k =>
      simp only [stampFooters, List.getElem?_cons_succ]
      rw [ih (start + 1) k]
      have harith : start + 1 + k = start + (k + 1) := by omega
      rw [harith]

theorem analyzeImagesFrom_length (now : Nat) (urls : List String) :
    ∀ (start : Nat) (outcomes : List ExtractOutcome),
      (analyzeImagesFrom now urls start outcomes).length = outcomes.length := by
  intro start outcomes
  induction outcomes generalizing start with
  | nil => rfl
  | cons o os ih => simp [analyzeImagesFrom, ih]

theorem analyzeImagesFrom_getElem? (now : Nat) (urls : List String) :
    ∀ (outcomes : List ExtractOutcome) (start j : Nat),
      (analyzeImagesFrom now urls start outcomes)[j]? =
        (outcomes[j]?).map (fun o => processImage now urls (start + j) o) := by
  intro outcomes
  induction outcomes with
  | nil => intro start j; simp [analyzeImagesFrom]
  | cons o os ih =>
    intro start j
    cases j with
    | zero => simp [analyzeImagesFrom]
    | succ j =>
      simp only [analyzeImagesFrom, List.getElem?_cons_succ]
      rw [ih (start + 1) j]
      have harith : start + 1 + j = start + (j + 1) := by omega
      rw [harith]

/-! ### Claim C2: TOC insertion and footer numbering -/

/-- C2: in PASS 2 of `generatePdf`, the table-of-contents page becomes
page 1, every content page shifts by one position, and content page `j+1`
(1-based `i = j+1` of `N` content pages) is stamped with the footer
`Page {i} of {N}`; the `i` values are thus strictly increasing in page
order with `N` constant; pages appended by TOC overflow are not stamped. -/
theorem pdf_toc_front_and_footers (contentPages : List Page) (tocOverflow : Nat) :
    (pdfPassTwo contentPages tocOverflow)[0]? = some tocPage ∧
    (pdfPassTwo contentPages tocOverflow).length =
      contentPages.length + 1 + tocOverflow ∧
    (∀ j p, contentPages[j]? = some p →
      (pdfPassTwo contentPages tocOverflow)[j + 1]? =
        some { p with footer := some (footerText (j + 1) contentPages.length) }) ∧
    (∀ k, contentPages.length + 1 ≤ k → k < contentPages.length + 1 + tocOverflow →
      (pdfPassTwo contentPages tocOverflow)[k]? = some tocOverflowPage) := by
  refine ⟨?_, ?_, ?_, ?_⟩
  · rw [pdfPassTwo, stampFooters_getElem?]
    simp [tocPage]
  · rw [pdfPassTwo, stampFooters_length]
    simp [Nat.add_assoc, Nat.add_comm]
  · intro j p hj
    have hjlen : j < contentPages.length := by
      rcases List.getElem?_eq_some_iff.mp hj with ⟨hlt, -⟩
      exact hlt
    rw [pdfPassTwo, stampFooters_getElem?]
    rw [List.getElem?_cons_succ, List.getElem?_append, if_pos hjlen, hj]
    have hcond : 2 ≤ 1 + (j + 1) ∧ 1 + (j + 1) ≤ contentPages.length + 1 := by omega
    have harith : 1 + (j + 1) - 1 = j + 1 := by omega
    simp only [Option.map_some', if_pos hcond, harith]
  · intro k hk1 hk2
    rw [pdfPassTwo, stampFooters_getElem?]
    obtain ⟨k, rfl⟩ : ∃ m, k = m + 1 := ⟨k - 1, by omega⟩
    rw [List.getElem?_cons_succ, List.getElem?_append,
      if_neg (by omega), List.getElem?_replicate, if_pos (by omega)]
    simp only [Option.map_some']
    rw [if_neg (by omega)]

/-- Witness for C2 on a concrete two-page content pass. -/
theorem pdf_toc_front_and_footers_witness :
    (pdfPassTwo [{ content := "c1", footer := none }, { content := "c2", footer := none }] 0)[1]? =
      some { content := "c1", footer := some (footerText 1 2) } ∧
    (pdfPassTwo [{ content := "c1", footer := none }, { content := "c2", footer := none }] 0)[2]? =
      some { content := "c2", footer := some (footerText 2 2) } := by
  have h := pdf_toc_front_and_footers
    [{ content := "c1", footer := none }, { content := "c2", footer := none }] 0
  exact ⟨h.2.2.1 0 _ rfl, h.2.2.1 1 _ rfl⟩

/-! ### Claim C3: the debounced save comparison -/

/-- C3: when the debounced save task re-reads the remote file and its
content equals the content about to be written under whitespace-stripping,
the status becomes `saved` and no write call is made; when they differ the
write is invoked with this same content and the freshly read sha as the
expected version. -/
theorem save_comparison_idempotent (content sha encodedContent : String)
    (writeSucceeds : Bool) :
    (stripWs content = stripWs encodedContent →
      runSaveTask (ReadResult.found content sha) encodedContent writeSucceeds =
        { status := SaveStatus.saved, writeCall := none }) ∧
    (stripWs content ≠ stripWs encodedContent → sha ≠ "" →
      (runSaveTask (ReadResult.found content sha) encodedContent writeSucceeds).writeCall =
        some { content := encodedContent, expectedSha := some sha }) := by
  constructor
  · intro h
    simp [runSaveTask, h]
  · intro h hsha
    cases writeSucceeds <;> simp [runSaveTask, h, hsha]

/-- Witness for C3: identical content (modulo whitespace) is not
re-written; differing content is written with the fresh sha. -/
theorem save_comparison_idempotent_witness :
    runSaveTask (ReadResult.found "YW Jj\n" "sha1") "YWJj" true =
      { status := SaveStatus.saved, writeCall := none } ∧
    (runSaveTask (ReadResult.found "zzzz" "sha1") "YWJj" true).writeCall =
      some { content := "YWJj", expectedSha := some "sha1" } :=
  ⟨(save_comparison_idempotent "YW Jj\n" "sha1" "YWJj" true).1 (by decide),
   (save_comparison_idempotent "zzzz" "sha1" "YWJj" true).2 (by decide) (by decide)⟩

/-! ### Claim C5: positional per-image failure isolation -/

/-- C5: for a batch of `N` outcomes where the call for image `k` fails with
a transport error, the result sequence has length `N`, position `k` carries
an error and no questions, and every other position is exactly the
processing of its own image's outcome, matched by positional index. -/
theorem extraction_batch_positional (now : Nat) (urls : List String)
    (outcomes : List ExtractOutcome) (k : Nat)
    (hk : outcomes[k]? = some ExtractOutcome.transportError) :
    (analyzeImages now urls outcomes).length = outcomes.length ∧
    (analyzeImages now urls outcomes)[k]? =
      some { imageUrl := urls.getD k "", questions := [],
             error := some (imageErrorMsg k) } ∧
    (∀ j, j ≠ k → (analyzeImages now urls outcomes)[j]? =
      (outcomes[j]?).map (processImage now urls j)) := by
  refine ⟨analyzeImagesFrom_length now urls 0 outcomes, ?_, ?_⟩
  · rw [analyzeImages, analyzeImagesFrom_getElem?, hk]
    simp only [Nat.zero_add]
    rfl
  · intro j _
    rw [analyzeImages, analyzeImagesFrom_getElem?]
    simp only [Nat.zero_add]

/-- Witness for C5: a three-image batch whose second call fails — length 3,
position 2 carries the error, positions 1 and 3 carry their own questions. -/
theorem extraction_batch_positional_witness :
    (analyzeImages 7 urls3 outcomes3).length = 3 ∧
    (analyzeImages 7 urls3 outcomes3)[1]? =
      some { imageUrl := "u2", questions := [], error := some (imageErrorMsg 1) } ∧
    (analyzeImages 7 urls3 outcomes3)[0]? =
      some { imageUrl := "u1",
             questions := [Question.mcq "ext-7-0-0" "Q1?" ["x", "y"] none],
             error := none } ∧
    (analyzeImages 7 urls3 outcomes3)[2]? =
      some { imageUrl := "u3",
             questions := [Question.shortAnswer "ext-7-2-0" "Q3?" "ans"],
             error := none } := by
  have h := extraction_batch_positional 7 urls3 outcomes3 1 rfl
  refine ⟨h.1, h.2.1, ?_, ?_⟩
  · rw [h.2.2 0 (by decide)]; rfl
  · rw [h.2.2 2 (by decide)]; rfl

/-! ### Claim C6 (corrected): option-label stripping -/

/-- C6 counterexample: `" Paris "` has no leading enumeration marker, yet
the rule does not return it unchanged — it trims the whitespace. -/
theorem strip_option_counterexample :
    hasLeadingMarker " Paris " = false ∧
    stripOption " Paris " = "Paris" ∧
    stripOption " Paris " ≠ " Paris " := by
  refine ⟨by decide, by decide, by decide⟩

theorem stripLeadingMarker_eq_self_of_no_marker (s : String)
    (h : hasLeadingMarker s = false) : stripLeadingMarker s = s := by
  cases h1 : (s.data.dropWhile isJsWs).takeWhile isAsciiAlnum with
  | nil => simp [stripLeadingMarker, h1]
  | cons a as =>
    cases h2 : (s.data.dropWhile isJsWs).dropWhile isAsciiAlnum with
    | nil => simp [stripLeadingMarker, h1, h2]
    | cons c rest =>
      have hc : (c = '.' || c = ')') = false := by
        have := h
        rw [hasLeadingMarker] at this
        simp only [h1, h2] at this
        exact this
      simp [stripLeadingMarker, h1, h2, hc]

/-- C6 (amended): `"B) Paris"` becomes `"Paris"`, `"3. 42"` becomes
`"42"`; an input with no leading marker is returned with its surrounding
whitespace trimmed but otherwise unchanged. -/
theorem strip_option_rule (s : String) :
    stripOption "B) Paris" = "Paris" ∧
    stripOption "3. 42" = "42" ∧
    (hasLeadingMarker s = false → stripOption s = jsTrim s) := by
  refine ⟨by decide, by decide, fun h => ?_⟩
  rw [stripOption, stripLeadingMarker_eq_self_of_no_marker s h]

/-- Witness for C6: `"Paris"` has no marker and is already trimmed, so the
rule leaves it as is. -/
theorem strip_option_rule_witness :
    hasLeadingMarker "Paris" = false ∧ stripOption "Paris" = jsTrim "Paris" :=
  ⟨by decide, (strip_option_rule "Paris").2.2 (by decide)⟩

/-! ### Claim C7 (corrected): malformed responses -/

/-- C7 counterexample: a response whose text fails `JSON.parse` does NOT
degrade to an error-free empty sequence — the throw is caught and reported
as a per-image error. -/
theorem parse_failure_counterexample :
    (analyzeImages 0 ["u"] [ExtractOutcome.badJsonText]).map (fun r => r.error) =
      [some (imageErrorMsg 0)] ∧
    some (imageErrorMsg 0) ≠ (none : Option String) := by
  exact ⟨rfl, by simp⟩

/-- C7 (amended): a response that parses as JSON but is not an array yields
an empty question sequence with no error; a response whose text fails to
parse as JSON is reported as a per-image extraction error. -/
theorem non_array_response_yields_empty (now : Nat) (urls : List String)
    (idx : Nat) (j : Json) (hna : ∀ items, j ≠ Json.arr items) :
    processImage now urls idx (ExtractOutcome.response j) =
      { imageUrl := urls.getD idx "", questions := [], error := none } ∧
    processImage now urls idx ExtractOutcome.badJsonText =
      { imageUrl := urls.getD idx "", questions := [],
        error := some (imageErrorMsg idx) } := by
  constructor
  · cases j with
    | arr items => exact absurd rfl (hna items)
    | null => rfl
    | bool b => rfl
    | num n => rfl
    | str s => rfl
    | obj fields => rfl
  · rfl

/-- Witness for C7 (amended): `JSON.parse` of the text `"null"` yields the
non-array value `null`, producing zero questions and no error. -/
theorem non_array_response_yields_empty_witness :
    (∀ items, Json.null ≠ Json.arr items) ∧
    processImage 0 ["u"] 0 (ExtractOutcome.response Json.null) =
      { imageUrl := "u", questions := [], error := none } :=
  ⟨fun _ h => Json.noConfusion h,
   (non_array_response_yields_empty 0 ["u"] 0 Json.null
     (fun _ h => Json.noConfusion h)).1⟩

/-! ### Claim C10: name trimming on create/rename -/

/-- C10: a name whose trimmed form is empty creates/renames nothing; any
other name is stored in its whitespace-trimmed form, not the raw input. -/
theorem trimmed_names (subjects : Library) (fid sid name : String) (es : Subject) :
    (jsTrim name = "" →
      handleAddSubject fid name subjects = subjects ∧
      handleAddLecture fid sid (some name) subjects = subjects ∧
      handleUpdateSubject (some es) name subjects = subjects) ∧
    (jsTrim name ≠ "" →
      handleAddSubject fid name subjects =
        subjects ++ [{ id := fid, name := jsTrim name, lectures := [] }] ∧
      handleAddLecture fid sid (some name) subjects =
        subjects.map (fun sub => if sub.id = sid then
          { sub with lectures := sub.lectures ++
              [{ id := fid, name := jsTrim name, questions := [] }] }
          else sub) ∧
      handleUpdateSubject (some es) name subjects =
        subjects.map (fun sub => if sub.id = es.id then
          { sub with name := jsTrim name } else sub)) := by
  constructor
  · intro h
    refine ⟨?_, ?_, ?_⟩
    · rw [handleAddSubject, if_neg (by simp [h])]
    · rw [handleAddLecture, if_neg (by simp [h])]
    · rw [handleUpdateSubject, if_neg (by simp [h])]
  · intro h
    refine ⟨?_, ?_, ?_⟩
    · rw [handleAddSubject, if_pos h]
    · rw [handleAddLecture, if_pos h]
    · rw [handleUpdateSubject, if_pos h]

/-- Witness for C10: the padded name `"  Math  "` is stored as `"Math"`,
and an all-whitespace name creates nothing. -/
theorem trimmed_names_witness :
    handleAddSubject "sub-1" "  Math  " [] =
      [{ id := "sub-1", name := "Math", lectures := [] }] ∧
    handleAddSubject "sub-1" "   " twoLectureLib = twoLectureLib := by
  constructor
  · have h := (trimmed_names [] "sub-1" "s" "  Math  "
      { id := "x", name := "x", lectures := [] }).2 (by decide)
    rw [h.1]
    rfl
  · exact ((trimmed_names twoLectureLib "sub-1" "s" "   "
      { id := "x", name := "x", lectures := [] }).1 (by decide)).1

/-! ### Claim C9: absent ids are silent no-ops -/

/-- C9: every Library mutation invoked with a subject, lecture, or question
id that is not present leaves the Library unchanged (no error channel
exists in these handlers). -/
theorem absent_id_noop (subjects : Library) (sid lid qid mid tid fid : String)
    (entry : Option String) (edited : Question) :
    ((∀ s ∈ subjects, s.id ≠ sid) →
      handleAddLecture fid sid entry subjects = subjects) ∧
    ((∀ s ∈ subjects, s.id = sid → ∀ l ∈ s.lectures, l.id ≠ lid) →
      deleteLecture sid lid subjects = subjects) ∧
    ((∀ s ∈ subjects, s.id = sid → ∀ l ∈ s.lectures, l.id = lid →
        ∀ q ∈ l.questions, q.id ≠ qid) →
      handleDeleteQuestion sid lid qid subjects = subjects) ∧
    ((∀ s ∈ subjects, ∀ l ∈ s.lectures, ∀ q ∈ l.questions, q.id ≠ qid) →
      handleSaveEdit qid edited subjects = subjects) ∧
    ((∀ s ∈ subjects, s.id ≠ sid) →
      handleDrop sid mid tid subjects = subjects) ∧
    ((∀ s ∈ subjects, s.id = sid → ∀ l ∈ s.lectures, l.id ≠ mid) →
      handleDrop sid mid tid subjects = subjects) ∧
    ((∀ s ∈ subjects, s.id = sid → ∀ l ∈ s.lectures, l.id ≠ tid) →
      handleDrop sid mid tid subjects = subjects) := by
  refine ⟨?_, ?_, ?_, ?_, ?_, ?_, ?_⟩
  · intro h
    cases entry with
    | none => rfl
    | some raw =>
      by_cases hr : jsTrim raw ≠ ""
      · rw [handleAddLecture, if_pos hr]
        exact map_eq_self_of _ subjects (fun s hs => by rw [if_neg (h s hs)])
      · rw [handleAddLecture, if_neg hr]
  · intro h
    rw [deleteLecture]
    refine map_eq_self_of _ subjects (fun s hs => ?_)
    by_cases hsid : s.id = sid
    · rw [if_pos hsid]
      have : s.lectures.filter (fun lec => lec.id ≠ lid) = s.lectures :=
        List.filter_eq_self.mpr (fun l hl => by simpa using h s hs hsid l hl)
      rw [this]
    · rw [if_neg hsid]
  · intro h
    rw [handleDeleteQuestion]
    refine map_eq_self_of _ subjects (fun s hs => ?_)
    by_cases hsid : s.id ≠ sid
    · rw [if_pos hsid]
    · rw [if_neg hsid]
      push_neg at hsid
      have hlecs : s.lectures.map (fun lec =>
          if lec.id ≠ lid then lec
          else { lec with questions :=
            lec.questions.filter (fun q => q.id ≠ qid) }) = s.lectures := by
        refine map_eq_self_of _ s.lectures (fun l hl => ?_)
        by_cases hlid : l.id ≠ lid
        · rw [if_pos hlid]
        · rw [if_neg hlid]
          push_neg at hlid
          have : l.questions.filter (fun q => q.id ≠ qid) = l.questions :=
            List.filter_eq_self.mpr
              (fun q hq => by simpa using h s hs hsid l hl hlid q hq)
          rw [this]
      rw [hlecs]
  · intro h
    rw [handleSaveEdit]
    by_cases hq : qid = ""
    · rw [if_pos hq]
    · rw [if_neg hq]
      refine map_eq_self_of _ subjects (fun s hs => ?_)
      have hlecs : s.lectures.map (fun lec =>
          { lec with questions := lec.questions.map (fun q =>
              if q.id = qid then edited else q) }) = s.lectures := by
        refine map_eq_self_of _ s.lectures (fun l hl => ?_)
        have : l.questions.map (fun q => if q.id = qid then edited else q) =
            l.questions :=
          map_eq_self_of _ l.questions
            (fun q hqm => by rw [if_neg (h s hs l hl q hqm)])
        rw [this]
      rw [hlecs]
  · intro h
    have hfind : subjects.find? (fun s => s.id = sid) = none :=
      List.find?_eq_none.mpr (fun x hx => by simpa using h x hx)
    simp [handleDrop, hfind]
  · intro h
    cases hfind : subjects.find? (fun s => s.id = sid) with
    | none => simp [handleDrop, hfind]
    | some s0 =>
      have hmem : s0 ∈ subjects := List.mem_of_find?_eq_some hfind
      have hsid : s0.id = sid := by simpa using List.find?_some hfind
      have hmid : s0.lectures.findIdx? (fun l => l.id = mid) = none :=
        List.findIdx?_eq_none_iff.mpr
          (fun l hl => by simpa using h s0 hmem hsid l hl)
      simp [handleDrop, hfind, hmid]
  · intro h
    cases hfind : subjects.find? (fun s => s.id = sid) with
    | none => simp [handleDrop, hfind]
    | some s0 =>
      have hmem : s0 ∈ subjects := List.mem_of_find?_eq_some hfind
      have hsid : s0.id = sid := by simpa using List.find?_some hfind
      have hti : s0.lectures.findIdx? (fun l => l.id = tid) = none :=
        List.findIdx?_eq_none_iff.mpr
          (fun l hl => by simpa using h s0 hmem hsid l hl)
      cases hdi : s0.lectures.findIdx? (fun l => l.id = mid) with
      | none => simp [handleDrop, hfind, hdi]
      | some di => simp [handleDrop, hfind, hdi, hti]

/-- Witness for C9: operations aimed at the absent subject id `"zzz"`,
lecture id `"zzz"`, or question id `"zzz"` leave the two-lecture library
untouched (for the reorder: absent subject, absent dragged lecture, and
absent target lecture). -/
theorem absent_id_noop_witness :
    handleAddLecture "lec-9" "zzz" (some "New") twoLectureLib = twoLectureLib ∧
    deleteLecture "s" "zzz" twoLectureLib = twoLectureLib ∧
    handleDeleteQuestion "s" "A" "zzz" twoLectureLib = twoLectureLib ∧
    handleSaveEdit "zzz" (Question.shortAnswer "zzz" "q" "a") twoLectureLib =
      twoLectureLib ∧
    handleDrop "zzz" "A" "B" twoLectureLib = twoLectureLib ∧
    handleDrop "s" "zzz" "B" twoLectureLib = twoLectureLib ∧
    handleDrop "s" "A" "zzz" twoLectureLib = twoLectureLib := by
  have h := absent_id_noop twoLectureLib "zzz" "zzz" "zzz" "A" "B" "lec-9"
    (some "New") (Question.shortAnswer "zzz" "q" "a")
  have h2 := absent_id_noop twoLectureLib "s" "zzz" "zzz" "zzz" "B" "lec-9"
    (some "New") (Question.shortAnswer "zzz" "q" "a")
  have h3 := absent_id_noop twoLectureLib "s" "zzz" "zzz" "A" "zzz" "lec-9"
    (some "New") (Question.shortAnswer "zzz" "q" "a")
  exact ⟨h.1 (by decide), h2.2.1 (by decide),
    (absent_id_noop twoLectureLib "s" "A" "zzz" "x" "y" "f" none
      (Question.shortAnswer "zzz" "q" "a")).2.2.1 (by decide),
    h.2.2.2.1 (by decide), h.2.2.2.2.1 (by decide), h2.2.2.2.2.2.1 (by decide),
    h3.2.2.2.2.2.2 (by decide)⟩

theorem getElem?_eraseIdx_of_lt {α : Type} :
    ∀ (l : List α) (i j : Nat), j < i → (l.eraseIdx i)[j]? = l[j]? := by
  intro l
  induction l with
  | nil => intro i j _; rfl
  | cons a t ih =>
    intro i j hj
    cases i with
    | zero => omega
    | succ i =>
      cases j with
      | zero => simp [List.eraseIdx_cons_succ]
      | succ j =>
        simp only [List.eraseIdx_cons_succ, List.getElem?_cons_succ]
        exact ih i j (by omega)

theorem getElem?_eraseIdx_of_ge {α : Type} :
    ∀ (l : List α) (i j : Nat), i ≤ j → (l.eraseIdx i)[j]? = l[j + 1]? := by
  intro l
  induction l with
  | nil => intro i j _; rfl
  | cons a t ih =>
    intro i j hj
    cases i with
    | zero => simp [List.eraseIdx_cons_zero, List.getElem?_cons_succ]
    | succ i =>
      cases j with
      | zero => omega
      | succ j =>
        simp only [List.eraseIdx_cons_succ, List.getElem?_cons_succ]
        exact ih i j (by omega)

theorem getElem?_insertIdx_self {α : Type} (x : α) :
    ∀ (l : List α) (n : Nat), n ≤ l.length → (l.insertIdx n x)[n]? = some x := by
  intro l
  induction l with
  | nil =>
    intro n hn
    obtain rfl : n = 0 := by simpa using hn
    simp [List.insertIdx_zero]
  | cons a t ih =>
    intro n hn
    cases n with
    | zero => simp [List.insertIdx_zero]
    | succ n =>
      simp only [List.insertIdx_succ_cons, List.getElem?_cons_succ]
      exact ih n (by simpa using hn)

theorem getElem?_insertIdx_of_lt {α : Type} (x : α) :
    ∀ (l : List α) (n k : Nat), k < n → (l.insertIdx n x)[k]? = l[k]? := by
  intro l
  induction l with
  | nil =>
    intro n k hk
    cases n with
    | zero => omega
    | succ n => simp [List.insertIdx_succ_nil]
  | cons a t ih =>
    intro n k hk
    cases n with
    | zero => omega
    | succ n =>
      cases k with
      | zero => simp [List.insertIdx_succ_cons]
      | succ k =>
        simp only [List.insertIdx_succ_cons, List.getElem?_cons_succ]
        exact ih n k (by omega)

theorem getElem?_insertIdx_succ_of_ge {α : Type} (x : α) :
    ∀ (l : List α) (n k : Nat), n ≤ k → n ≤ l.length →
      (l.insertIdx n x)[k + 1]? = l[k]? := by
  intro l
  induction l with
  | nil =>
    intro n k hk hn
    obtain rfl : n = 0 := by simpa using hn
    simp [List.insertIdx_zero]
  | cons a t ih =>
    intro n k hk hn
    cases n with
    | zero => simp [List.insertIdx_zero, List.getElem?_cons_succ]
    | succ n =>
      cases k with
      | zero => omega
      | succ k =>
        simp only [List.insertIdx_succ_cons, List.getElem?_cons_succ]
        exact ih n k (by omega) (by simpa using hn)

/-! ### Claim C1 (corrected): where the reorder puts the moved lecture -/

/-- C1 counterexample: in the library whose subject `s` has lectures
`[A, B]`, dropping lecture `A` onto lecture `B` yields the order `[B, A]`:
the moved lecture does NOT sit immediately before the target (no contiguous
`[A, B]` remains), contradicting the claim as stated. -/
theorem reorder_before_counterexample :
    (handleDrop "s" "A" "B" twoLectureLib).map (fun s => s.lectures.map Lecture.id) =
      [["B", "A"]] ∧
    ¬ List.IsInfix ["A", "B"] ["B", "A"] := by
  constructor
  · rfl
  · decide

/-- C1 (amended): `handleDrop` removes the dragged lecture and re-inserts
it at the index the drop target occupied in the ORIGINAL sequence; hence
the moved lecture ends up immediately before the target when it originally
came after the target, and immediately after the target when it originally
came before it. The Library is returned unchanged when the dragged id is
empty or equal to the target id, when the subject id is absent, or when
either lecture id is absent from that subject. -/
theorem reorder_at_target_slot (subjects : Library) (sid mid tid : String) :
    ((mid = "" ∨ mid = tid) → handleDrop sid mid tid subjects = subjects) ∧
    (subjects.find? (fun s => s.id = sid) = none →
      handleDrop sid mid tid subjects = subjects) ∧
    (∀ s0, subjects.find? (fun s => s.id = sid) = some s0 →
      (s0.lectures.findIdx? (fun l => l.id = mid) = none ∨
       s0.lectures.findIdx? (fun l => l.id = tid) = none) →
      handleDrop sid mid tid subjects = subjects) ∧
    (∀ s0 di ti, mid ≠ "" → mid ≠ tid →
      subjects.find? (fun s => s.id = sid) = some s0 →
      s0.lectures.findIdx? (fun l => l.id = mid) = some di →
      s0.lectures.findIdx? (fun l => l.id = tid) = some ti →
      (lecturesOfFirst sid (handleDrop sid mid tid subjects))[ti]? =
        s0.lectures[di]? ∧
      (ti < di →
        (lecturesOfFirst sid (handleDrop sid mid tid subjects))[ti + 1]? =
          s0.lectures[ti]?) ∧
      (di < ti →
        (lecturesOfFirst sid (handleDrop sid mid tid subjects))[ti - 1]? =
          s0.lectures[ti]?)) := by
  refine ⟨?_, ?_, ?_, ?_⟩
  · rintro (h | h) <;> simp [handleDrop, h]
  · intro hfind
    simp [handleDrop, hfind]
  · rintro s0 hfind (hmid | htid)
    · simp [handleDrop, hfind, hmid]
    · cases hdi : s0.lectures.findIdx? (fun l => l.id = mid) with
      | none => simp [handleDrop, hfind, hdi]
      | some di => simp [handleDrop, hfind, hdi, htid]
  · intro s0 di ti hc1 hc2 hfind hdi hti
    obtain ⟨hdilen, item, hitem, hpitem⟩ := findIdx?_some _ _ _ hdi
    obtain ⟨htilen, titem, htitem, hptitem⟩ := findIdx?_some _ _ _ hti
    have hdrop : handleDrop sid mid tid subjects =
        modifyFirst (fun s => s.id = sid)
          (fun s => { s with lectures :=
            (s0.lectures.eraseIdx di).insertIdx ti item }) subjects := by
      simp [handleDrop, hfind, hdi, hti, hitem, hc1, hc2]
    have hmf := modifyFirst_find? (fun s => s.id = sid)
      (fun s => { s with lectures := (s0.lectures.eraseIdx di).insertIdx ti item })
      (fun x hx => hx) subjects s0 hfind
    have hfirst : lecturesOfFirst sid (handleDrop sid mid tid subjects) =
        (s0.lectures.eraseIdx di).insertIdx ti item := by
      rw [hdrop]
      simp [lecturesOfFirst, hmf]
    have hne : di ≠ ti := by
      intro hE
      subst hE
      rw [hitem] at htitem
      obtain rfl : item = titem := by simpa using htitem
      apply hc2
      have h1 : item.id = mid := by simpa using hpitem
      have h2 : item.id = tid := by simpa using hptitem
      rw [← h1, h2]
    have hremlen : (s0.lectures.eraseIdx di).length = s0.lectures.length - 1 := by
      rw [List.length_eraseIdx, if_pos hdilen]
    refine ⟨?_, ?_, ?_⟩
    · rw [hfirst, hitem]
      exact getElem?_insertIdx_self item _ ti (by omega)
    · intro hlt
      rw [hfirst]
      rw [getElem?_insertIdx_succ_of_ge item _ ti ti (le_refl ti) (by omega)]
      exact getElem?_eraseIdx_of_lt _ di ti hlt
    · intro hlt
      rw [hfirst]
      rw [getElem?_insertIdx_of_lt item _ ti (ti - 1) (by omega)]
      rw [getElem?_eraseIdx_of_ge _ di (ti - 1) (by omega)]
      have harith : ti - 1 + 1 = ti := by omega
      rw [harith]

/-- Witness for C1 (amended): in the `[A, B]` library, dropping `B` onto
`A` puts `B` at `A`'s old slot, immediately before `A`. -/
theorem reorder_at_target_slot_witness :
    (lecturesOfFirst "s" (handleDrop "s" "B" "A" twoLectureLib))[0]? = some lecB ∧
    (lecturesOfFirst "s" (handleDrop "s" "B" "A" twoLectureLib))[1]? = some lecA := by
  have h := (reorder_at_target_slot twoLectureLib "s" "B" "A").2.2.2
    { id := "s", name := "Subject S", lectures := [lecA, lecB] } 1 0
    (by decide) (by decide) rfl rfl rfl
  refine ⟨?_, ?_⟩
  · rw [h.1]; rfl
  · rw [h.2.1 (by omega)]; rfl

/-! ### Claim C8: reorder is a pure permutation -/

/-- C8: for every reorder, each subject keeps its id and name and its
lecture sequence in the result is a permutation of the original (entire
lectures, hence the multiset of lecture ids and their contents, are
preserved — only the order can change); reordering a lecture onto itself
leaves the Library unchanged. -/
theorem reorder_is_permutation (subjects : Library) (sid mid tid : String) :
    List.Forall₂
      (fun s s2 => s.id = s2.id ∧ s.name = s2.name ∧ s.lectures.Perm s2.lectures)
      subjects (handleDrop sid mid tid subjects) ∧
    handleDrop sid mid mid subjects = subjects := by
  have hrefl : ∀ s : Subject, s.id = s.id ∧ s.name = s.name ∧ s.lectures.Perm s.lectures :=
    fun s => ⟨rfl, rfl, List.Perm.refl _⟩
  constructor
  · by_cases hc1 : mid = ""
    · have hd : handleDrop sid mid tid subjects = subjects := by simp [handleDrop, hc1]
      rw [hd]
      exact List.forall₂_same.mpr (fun s _ => hrefl s)
    by_cases hc2 : mid = tid
    · have hd : handleDrop sid mid tid subjects = subjects := by simp [handleDrop, hc2]
      rw [hd]
      exact List.forall₂_same.mpr (fun s _ => hrefl s)
    cases hfind : subjects.find? (fun s => s.id = sid) with
    | none =>
      have hd : handleDrop sid mid tid subjects = subjects := by simp [handleDrop, hfind]
      rw [hd]
      exact List.forall₂_same.mpr (fun s _ => hrefl s)
    | some s0 =>
      cases hdi : s0.lectures.findIdx? (fun l => l.id = mid) with
      | none =>
        have hd : handleDrop sid mid tid subjects = subjects := by
          simp [handleDrop, hfind, hdi]
        rw [hd]
        exact List.forall₂_same.mpr (fun s _ => hrefl s)
      | some di =>
        cases hti : s0.lectures.findIdx? (fun l => l.id = tid) with
        | none =>
          have hd : handleDrop sid mid tid subjects = subjects := by
            simp [handleDrop, hfind, hdi, hti]
          rw [hd]
          exact List.forall₂_same.mpr (fun s _ => hrefl s)
        | some ti =>
          obtain ⟨hdilen, item, hitem, hpitem⟩ := findIdx?_some _ _ _ hdi
          obtain ⟨htilen, titem, htitem, hptitem⟩ := findIdx?_some _ _ _ hti
          have hd : handleDrop sid mid tid subjects =
              modifyFirst (fun s => s.id = sid)
                (fun s => { s with lectures :=
                  (s0.lectures.eraseIdx di).insertIdx ti item }) subjects := by
            simp [handleDrop, hfind, hdi, hti, hitem, hc1, hc2]
          rw [hd]
          refine forall₂_modifyFirst _ _ _ hrefl subjects ?_
          intro x hx
          rw [hfind] at hx
          obtain rfl : s0 = x := by simpa using hx
          refine ⟨rfl, rfl, ?_⟩
          have hremlen : (s0.lectures.eraseIdx di).length =
              s0.lectures.length - 1 := by
            rw [List.length_eraseIdx, if_pos hdilen]
          have hne : di ≠ ti := by
            intro hE
            subst hE
            rw [hitem] at htitem
            obtain rfl : item = titem := by simpa using htitem
            apply hc2
            have h1 : item.id = mid := by simpa using hpitem
            have h2 : item.id = tid := by simpa using hptitem
            rw [← h1, h2]
          have h1 : s0.lectures.Perm (item :: s0.lectures.eraseIdx di) :=
            perm_cons_eraseIdx _ di item hitem
          have h2 : ((s0.lectures.eraseIdx di).insertIdx ti item).Perm
              (item :: s0.lectures.eraseIdx di) :=
            List.perm_insertIdx item _ (by omega)
          exact h1.trans h2.symm
  · simp [handleDrop]

theorem find?_subject_map (sid : String) (f : Subject → Subject)
    (hid : ∀ s, (f s).id = s.id) (subjects : Library) :
    (subjects.map f).find? (fun s => s.id = sid) =
      (subjects.find? (fun s => s.id = sid)).map f := by
  rw [List.find?_map]
  have hp : ((fun s => decide (s.id = sid)) ∘ f) = (fun s => decide (s.id = sid)) :=
    funext (fun s => by simp [Function.comp, hid s])
  rw [hp]

theorem find?_lecture_map (lid : String) (g : Lecture → Lecture)
    (hid : ∀ l, (g l).id = l.id) (lectures : List Lecture) :
    (lectures.map g).find? (fun l => l.id = lid) =
      (lectures.find? (fun l => l.id = lid)).map g := by
  rw [List.find?_map]
  have hp : ((fun l => decide (l.id = lid)) ∘ g) = (fun l => decide (l.id = lid)) :=
    funext (fun l => by simp [Function.comp, hid l])
  rw [hp]

/-! ### Claim C4: staging commit -/

/-- C4: with a chosen subject and lecture both present and a selection that
matches at least one staged question, commit appends exactly the selected
questions — in staging order, with fresh ids assigned positionally — to the
end of the chosen lecture's question sequence; every committed (selected)
question disappears from the staging results; every retained staging
result still has a question or an error; and every staging result that
carries an error is retained (with its selected questions removed). -/
theorem commit_appends_selected (freshIds : Nat → String) (sid lid : String)
    (sel : List String) (results : List ExtractionResult) (subjects : Library)
    (s0 : Subject) (lec0 : Lecture)
    (hsid : sid ≠ "") (hlid : lid ≠ "")
    (hsel : (results.flatMap (fun r => r.questions)).filter
        (fun q => sel.contains q.id) ≠ [])
    (hs : subjects.find? (fun s => s.id = sid) = some s0)
    (hl : s0.lectures.find? (fun l => l.id = lid) = some lec0) :
    (((handleAddQuestionsToLecture freshIds sid lid sel results subjects).1.find?
        (fun s => s.id = sid)).bind
        (fun s => s.lectures.find? (fun l => l.id = lid))) =
      some { lec0 with
             questions := lec0.questions ++
               assignIds freshIds 0 ((results.flatMap (fun r => r.questions)).filter
                 (fun q => sel.contains q.id)) } ∧
    (∀ r2 ∈ (handleAddQuestionsToLecture freshIds sid lid sel results subjects).2,
      ∀ q ∈ r2.questions, sel.contains q.id = false) ∧
    (∀ r2 ∈ (handleAddQuestionsToLecture freshIds sid lid sel results subjects).2,
      r2.questions ≠ [] ∨ r2.error.isSome = true) ∧
    (∀ r ∈ results, r.error.isSome = true →
      { r with questions := r.questions.filter (fun q => !(sel.contains q.id)) } ∈
        (handleAddQuestionsToLecture freshIds sid lid sel results subjects).2) := by
  have hlen : ¬ ((results.flatMap (fun r => r.questions)).filter
      (fun q => sel.contains q.id)).length = 0 := by
    rw [List.length_eq_zero]
    exact hsel
  have hstep : handleAddQuestionsToLecture freshIds sid lid sel results subjects =
      (subjects.map (fun subject =>
        if subject.id ≠ sid then subject
        else { subject with
               lectures := subject.lectures.map (fun lecture =>
                 if lecture.id ≠ lid then lecture
                 else { lecture with
                        questions := lecture.questions ++
                          assignIds freshIds 0
                            ((results.flatMap (fun r => r.questions)).filter
                              (fun q => sel.contains q.id)) }) }),
       (results.map (fun result =>
          { result with
            questions :=
              result.questions.filter (fun q => !(sel.contains q.id)) })).filter
          (fun result => result.questions.length > 0 || result.error.isSome)) := by
    simp only [handleAddQuestionsToLecture]
    rw [if_neg (by
      simp only [Bool.or_eq_true, decide_eq_true_eq, not_or]
      exact ⟨⟨hsid, hlid⟩, hlen⟩)]
  have hs0id : s0.id = sid := by simpa using List.find?_some hs
  have hlec0id : lec0.id = lid := by simpa using List.find?_some hl
  refine ⟨?_, ?_, ?_, ?_⟩
  · rw [hstep]
    show ((subjects.map _).find? _).bind _ = _
    rw [find?_subject_map sid _
      (fun s => by by_cases hx : s.id ≠ sid <;> simp [hx]) subjects, hs]
    simp only [Option.map_some', Option.some_bind]
    rw [if_neg (by simp [hs0id])]
    show (s0.lectures.map _).find? _ = _
    rw [find?_lecture_map lid _
      (fun l => by by_cases hx : l.id ≠ lid <;> simp [hx]) s0.lectures, hl]
    simp only [Option.map_some']
    rw [if_neg (by simp [hlec0id])]
  · intro r2 hr2 q hq
    rw [hstep] at hr2
    obtain ⟨r, hr, rfl⟩ := List.mem_map.mp (List.mem_filter.mp hr2).1
    simpa using (List.mem_filter.mp hq).2
  · intro r2 hr2
    rw [hstep] at hr2
    have hpred := (List.mem_filter.mp hr2).2
    simp only [Bool.or_eq_true, decide_eq_true_eq] at hpred
    rcases hpred with h | h
    · exact Or.inl (List.length_pos.mp h)
    · exact Or.inr h
  · intro r hr herr
    rw [hstep]
    refine List.mem_filter.mpr ⟨List.mem_map_of_mem _ hr, ?_⟩
    simp [herr]

/-- Witness for C4: committing the selected question `q1` to lecture `A`
appends it (with fresh id `lib-0`) and retains the errored staging result. -/
theorem commit_appends_selected_witness :
    (((handleAddQuestionsToLecture (fun i => "lib-" ++ toString i) "s" "A" ["q1"]
        stagingResults twoLectureLib).1.find? (fun s => s.id = "s")).bind
        (fun s => s.lectures.find? (fun l => l.id = "A"))) =
      some { id := "A", name := "Lecture A",
             questions := [Question.mcq "lib-0" "What?" ["x", "y"] none] } ∧
    { imageUrl := "u2", questions := [], error := some "boom" } ∈
      (handleAddQuestionsToLecture (fun i => "lib-" ++ toString i) "s" "A" ["q1"]
        stagingResults twoLectureLib).2 := by
  have h := commit_appends_selected (fun i => "lib-" ++ toString i) "s" "A" ["q1"]
    stagingResults twoLectureLib
    { id := "s", name := "Subject S", lectures := [lecA, lecB] } lecA
    (by decide) (by decide) (by decide) rfl rfl
  constructor
  · rw [h.1]
    rfl
  · exact h.2.2.2 { imageUrl := "u2", questions := [], error := some "boom" }
      (by decide) (by decide)

end Qsnap
